import Mathlib

/-!
Verification of the Instagram searcher repository's adaptive rate limiter,
filter/dedup pipeline, strategy configuration and query normalisation.

The JavaScript source is shallowly embedded: JS numbers become `ℚ`
(delays, timestamps) or `ℕ` (counts), JS strings become `String`,
`Set<string>` becomes `List String` with membership insertion, and the
mutating methods become pure state-passing functions.  JS
`String.prototype.toLowerCase`/`toUpperCase` are modelled by the
ASCII case maps (the repository's names and keywords are ASCII or
caseless Arabic script).
-/

namespace IGS

/-- Priority label accepted by the rate limiter (`'high' | 'medium' | 'low'`). -/
inductive Priority where
  | high
  | medium
  | low
deriving DecidableEq, Repr

/-- State of `AdaptiveRateLimiter` (src/lib/searcher.js, constructor lines 297-310).
The first four fields are the configured values; the rest are the mutable state. -/
structure AdaptiveRateLimiter where
  baseDelayMs : ℚ
  minDelayMs : ℚ
  maxDelayMs : ℚ
  maxRequestsPerMinute : ℕ
  dynamicDelayMs : ℚ
  emptyStreak : ℕ
  cooldownUntil : ℚ
  backoffMs : ℚ
  requestTimestamps : List ℚ
  lastRequestTime : ℚ
deriving DecidableEq, Repr

/-- JS `options.x || d` defaulting for a numeric option: `0` is falsy. -/
def orDefault (x d : ℚ) : ℚ := if x = 0 then d else x

/-- JS `options.x || d` defaulting for a count option. -/
def orDefaultNat (x d : ℕ) : ℕ := if x = 0 then d else x

/-- Constructor `new AdaptiveRateLimiter(options)` (src/lib/searcher.js lines 297-310). -/
def AdaptiveRateLimiter.init (baseDelayMs minDelayMs maxDelayMs : ℚ)
    (maxRequestsPerMinute : ℕ) : AdaptiveRateLimiter :=
  let base := orDefault baseDelayMs 1500
  { baseDelayMs := base
    minDelayMs := orDefault minDelayMs 800
    maxDelayMs := orDefault maxDelayMs 8000
    maxRequestsPerMinute := orDefaultNat maxRequestsPerMinute 90
    dynamicDelayMs := base
    emptyStreak := 0
    cooldownUntil := 0
    backoffMs := 60000
    requestTimestamps := []
    lastRequestTime := 0 }

/-- `baseForPriority(priority)` (src/lib/searcher.js lines 312-316). -/
def AdaptiveRateLimiter.baseForPriority (rl : AdaptiveRateLimiter) (p : Priority) : ℚ :=
  match p with
  | .high => max (rl.baseDelayMs - 300) rl.minDelayMs
  | .low => rl.baseDelayMs + 300
  | .medium => rl.baseDelayMs

/-- Total suspension performed by `beforeRequest(meta)` entered at wall-clock
time `now` (src/lib/searcher.js lines 318-334): the cooldown wait (guarded by
JS truthiness of `cooldownUntil`, i.e. `≠ 0`) plus the spacing wait. -/
def AdaptiveRateLimiter.beforeRequestWait (rl : AdaptiveRateLimiter) (p : Priority)
    (now : ℚ) : ℚ :=
  let cooldownWait := if rl.cooldownUntil ≠ 0 ∧ now < rl.cooldownUntil
    then rl.cooldownUntil - now else 0
  let spacingTarget := max rl.dynamicDelayMs (rl.baseForPriority p)
  let sinceLast := now - rl.lastRequestTime
  let waitMs := max (spacingTarget - sinceLast) 0
  cooldownWait + waitMs

/-- Argument record of `afterResponse({status, resultsCount, responseTimeMs})`,
together with the `Date.now()` value observed inside the call. -/
structure ResponseEvent where
  status : ℕ
  resultsCount : ℕ
  responseTimeMs : ℚ
  now : ℚ
deriving DecidableEq, Repr

/-- Density branch of `afterResponse` (src/lib/searcher.js lines 348-351). -/
def AdaptiveRateLimiter.densityAdjust (rl : AdaptiveRateLimiter) : AdaptiveRateLimiter :=
  if rl.requestTimestamps.length > rl.maxRequestsPerMinute then
    { rl with dynamicDelayMs := min (rl.dynamicDelayMs + 400) rl.maxDelayMs }
  else rl

/-- Latency branch of `afterResponse` (src/lib/searcher.js lines 353-357). -/
def AdaptiveRateLimiter.latencyAdjust (rl : AdaptiveRateLimiter)
    (responseTimeMs : ℚ) : AdaptiveRateLimiter :=
  if responseTimeMs > 2000 then
    { rl with dynamicDelayMs := min (rl.dynamicDelayMs + 200) rl.maxDelayMs }
  else if responseTimeMs < 800 then
    { rl with dynamicDelayMs := max (rl.dynamicDelayMs - 100) rl.minDelayMs }
  else rl

/-- Empty-streak branch of `afterResponse` (src/lib/searcher.js lines 359-367). -/
def AdaptiveRateLimiter.emptyStreakAdjust (rl : AdaptiveRateLimiter)
    (resultsCount : ℕ) : AdaptiveRateLimiter :=
  if resultsCount = 0 then
    if rl.emptyStreak + 1 ≥ 3 then
      { rl with emptyStreak := rl.emptyStreak + 1,
                dynamicDelayMs := max (rl.dynamicDelayMs - 150) rl.minDelayMs }
    else { rl with emptyStreak := rl.emptyStreak + 1 }
  else
    { rl with emptyStreak := 0, dynamicDelayMs := max (rl.dynamicDelayMs - 50) rl.minDelayMs }

/-- `afterResponse({status, resultsCount, responseTimeMs})`
(src/lib/searcher.js lines 336-368).  `1.5` is written `3/2`. -/
def AdaptiveRateLimiter.afterResponse (rl : AdaptiveRateLimiter)
    (e : ResponseEvent) : AdaptiveRateLimiter :=
  let rl1 := { rl with requestTimestamps :=
    (rl.requestTimestamps ++ [e.now]).filter (fun ts => e.now - ts < 60000) }
  if e.status = 429 then
    { rl1 with
      cooldownUntil := e.now + rl1.backoffMs
      dynamicDelayMs := min (rl1.dynamicDelayMs * (3 / 2) + 200) rl1.maxDelayMs
      backoffMs := min (rl1.backoffMs * (3 / 2)) (rl1.maxDelayMs * 4) }
  else
    ((rl1.densityAdjust).latencyAdjust e.responseTimeMs).emptyStreakAdjust e.resultsCount

/-- Fold of `afterResponse` over a sequence of response events. -/
def AdaptiveRateLimiter.afterResponses (rl : AdaptiveRateLimiter)
    (es : List ResponseEvent) : AdaptiveRateLimiter :=
  es.foldl AdaptiveRateLimiter.afterResponse rl

/-- JS `String.prototype.toLowerCase`, modelled on the ASCII range
(the repository's keywords are ASCII or caseless Arabic script). -/
def jsToLowerCase (s : String) : String := String.mk (s.data.map Char.toLower)

/-- JS `String.prototype.toUpperCase`, modelled on the ASCII range. -/
def jsToUpperCase (s : String) : String := String.mk (s.data.map Char.toUpper)

/-- JS `haystack.includes(needle)`: substring containment. -/
def jsIncludes (haystack needle : String) : Bool :=
  decide (List.IsInfix needle.data haystack.data)

/-- JS `x || d` for an optional string: `undefined` and `""` are falsy. -/
def jsOrStr (x : Option String) (d : String) : String :=
  match x with
  | none => d
  | some s => if s = "" then d else s

/-- One keyword configuration entry: a list per language
(`bioFilterKeywords` / `excludeKeywords` in data/keywords.json). -/
structure KeywordSets where
  english : List String
  arabic : List String
deriving DecidableEq, Repr

/-- Profile record returned by `InstagramAPI.getProfile`
(src/lib/searcher.js lines 572-585). -/
structure Profile where
  id : String
  username : String
  full_name : String
  biography : Option String
  profile_pic_url : Option String
  profile_pic_url_hd : Option String
  is_private : Bool
  is_verified : Bool
  is_business_account : Bool
  followersCount : ℕ
  followingCount : ℕ
  postsCount : ℕ
deriving DecidableEq, Repr

/-- Verdict returned by `filterProfile` (src/lib/utils.js). -/
structure FilterVerdict where
  pass : Bool
  reason : String
deriving DecidableEq, Repr

/-- `filterProfile(profile, bioKeywords, excludeKeywords)`
(src/lib/utils.js lines 28-59).  The JS destructures `edge_followed_by`
and computes `followers`, but never uses it. -/
def filterProfile (profile : Profile) (bioKeywords excludeKeywords : KeywordSets) :
    FilterVerdict :=
  let _followers := profile.followersCount
  if profile.is_private then
    { pass := false, reason := "Account is private" }
  else
    let bio := jsToLowerCase (jsOrStr profile.biography "")
    let hasBioKeyword := (bioKeywords.english ++ bioKeywords.arabic).any
      (fun keyword => jsIncludes bio (jsToLowerCase keyword))
    if hasBioKeyword = false then
      { pass := false, reason := "No trainer keyword in bio" }
    else
      let hasExcludeKeyword := (excludeKeywords.english ++ excludeKeywords.arabic).any
        (fun keyword => jsIncludes bio (jsToLowerCase keyword))
      if hasExcludeKeyword then
        { pass := false, reason := "Has exclude keyword (not a trainer)" }
      else
        { pass := true, reason := "All checks passed" }

/-- Accepted record produced by `extractTrainerInfo` (src/lib/utils.js lines 64-85). -/
structure Trainer where
  username : String
  fullName : String
  userId : String
  followers : ℕ
  following : ℕ
  postsCount : ℕ
  verified : String
  businessAccount : String
  isPrivate : String
  profileImageUrl : String
  bio : String
  searchKeyword : String
  timestamp : String
deriving DecidableEq, Repr

/-- `extractTrainerInfo(profile, searchKeyword)` (src/lib/utils.js lines 64-85);
`nowIso` stands for `new Date().toISOString()`. -/
def extractTrainerInfo (profile : Profile) (searchKeyword nowIso : String) : Trainer :=
  { username := profile.username
    fullName := profile.full_name
    userId := profile.id
    followers := profile.followersCount
    following := profile.followingCount
    postsCount := profile.postsCount
    verified := if profile.is_verified then "Yes" else "No"
    businessAccount := if profile.is_business_account then "Yes" else "No"
    isPrivate := if profile.is_private then "Yes" else "No"
    profileImageUrl := jsOrStr profile.profile_pic_url_hd (jsOrStr profile.profile_pic_url "")
    bio := jsOrStr profile.biography ""
    searchKeyword := searchKeyword
    timestamp := nowIso }

/-- `deduplicateTrainers(trainers)` (src/lib/utils.js lines 90-102):
keep the first record per lower-cased username. -/
def deduplicateTrainers (trainers : List Trainer) : List Trainer :=
  (trainers.foldl
    (fun (st : List String × List Trainer) trainer =>
      if jsToLowerCase trainer.username ∈ st.1 then st
      else (st.1 ++ [jsToLowerCase trainer.username], st.2 ++ [trainer]))
    ([], [])).2

/-- Raw search hit pushed by `InstagramAPI.searchProfiles`
(src/lib/searcher.js lines 499-508). -/
structure RawUser where
  id : String
  username : String
  full_name : String
  followers : ℕ
  is_verified : Bool
  is_private : Bool
  profile_pic_url : String
  bio : String
deriving DecidableEq, Repr

/-- Mutable pipeline state of the smart `PTFinder`
(src/unnamed/part_002 lines 620-632): `seenUsernames` plus `allTrainers`. -/
structure SearchState where
  seenUsernames : List String
  allTrainers : List Trainer
deriving DecidableEq, Repr

/-- Fresh `PTFinder` pipeline state. -/
def SearchState.initial : SearchState := { seenUsernames := [], allTrainers := [] }

/-- Body of the per-hit loop of `PTFinder.searchAndProcess`
(src/unnamed/part_002 lines 710-730).  `fetch` abstracts
`api.getProfile` (a fetch failure returns `none`). -/
def processHit (fetch : String → Option Profile) (bioKeywords excludeKeywords : KeywordSets)
    (contextLabel nowIso : String) (s : SearchState) (user : RawUser) : SearchState :=
  if jsToLowerCase user.username ∈ s.seenUsernames then s
  else
    match fetch user.username with
    | none => s
    | some profile =>
      let filterResult := filterProfile profile bioKeywords excludeKeywords
      if filterResult.pass = false then s
      else
        let trainer := extractTrainerInfo profile contextLabel nowIso
        { seenUsernames := s.seenUsernames ++ [jsToLowerCase trainer.username]
          allTrainers := s.allTrainers ++ [trainer] }

/-- Hit loop of `PTFinder.searchAndProcess` (src/unnamed/part_002 lines 706-731)
over the list of raw hits the search collaborator returned. -/
def searchAndProcess (fetch : String → Option Profile)
    (bioKeywords excludeKeywords : KeywordSets) (contextLabel nowIso : String)
    (s : SearchState) (users : List RawUser) : SearchState :=
  users.foldl (processHit fetch bioKeywords excludeKeywords contextLabel nowIso) s

/-- Priority seed list of `PTFinder.configureKeywordSets`
(src/unnamed/part_002 line 664). -/
def prioritySeed : List String :=
  ["ahmed", "mohamed", "mohammed", "omar", "ali", "sara", "fatma", "mona", "nour", "mariam"]

/-- Name partition computed by `PTFinder.configureKeywordSets`
(src/unnamed/part_002 lines 663-681): priority names then remaining names. -/
def configureKeywordSets (names : List String) : List String × List String :=
  let priorityNames := prioritySeed.filter (fun n => decide (n ∈ names))
  let remainingNames := names.filter (fun n => decide (n ∉ priorityNames))
  (priorityNames, remainingNames)

/-- `PTFinder.generateCaseVariations(name)` (src/lib/searcher.js lines 23-29). -/
def generateCaseVariations (name : String) : List String :=
  [name, jsToLowerCase name, jsToUpperCase name]

/-- Query parameter sent by `InstagramAPI.searchProfiles`
(src/lib/searcher.js line 459): `query: query.toLowerCase()`. -/
def searchQuerySent (query : String) : String := jsToLowerCase query

/-- Full parameter list built by `InstagramAPI.searchProfiles`
(src/lib/searcher.js lines 457-462); `rank` stands for the random `rank_token`. -/
def searchRequestParams (query rank : String) : List (String × String) :=
  [("context", "user"), ("query", searchQuerySent query),
   ("rank_token", rank), ("include_reel", "true")]

/-- Configured follower floor (`FILTER.minFollowers`, src/unnamed/part_000 line 34). -/
def FILTER_minFollowers : ℕ := 100

/-! ### Helper lemmas for the rate limiter -/


@[simp] theorem densityAdjust_minDelayMs (rl : AdaptiveRateLimiter) :
    rl.densityAdjust.minDelayMs = rl.minDelayMs := by
  unfold AdaptiveRateLimiter.densityAdjust; split <;> rfl

@[simp] theorem densityAdjust_maxDelayMs (rl : AdaptiveRateLimiter) :
    rl.densityAdjust.maxDelayMs = rl.maxDelayMs := by
  unfold AdaptiveRateLimiter.densityAdjust; split <;> rfl

@[simp] theorem densityAdjust_cooldownUntil (rl : AdaptiveRateLimiter) :
    rl.densityAdjust.cooldownUntil = rl.cooldownUntil := by
  unfold AdaptiveRateLimiter.densityAdjust; split <;> rfl

@[simp] theorem latencyAdjust_minDelayMs (rl : AdaptiveRateLimiter) (rt : ℚ) :
    (rl.latencyAdjust rt).minDelayMs = rl.minDelayMs := by
  unfold AdaptiveRateLimiter.latencyAdjust; split <;> (try split) <;> rfl

@[simp] theorem latencyAdjust_maxDelayMs (rl : AdaptiveRateLimiter) (rt : ℚ) :
    (rl.latencyAdjust rt).maxDelayMs = rl.maxDelayMs := by
  unfold AdaptiveRateLimiter.latencyAdjust; split <;> (try split) <;> rfl

@[simp] theorem latencyAdjust_cooldownUntil (rl : AdaptiveRateLimiter) (rt : ℚ) :
    (rl.latencyAdjust rt).cooldownUntil = rl.cooldownUntil := by
  unfold AdaptiveRateLimiter.latencyAdjust; split <;> (try split) <;> rfl

@[simp] theorem emptyStreakAdjust_minDelayMs (rl : AdaptiveRateLimiter) (rc : ℕ) :
    (rl.emptyStreakAdjust rc).minDelayMs = rl.minDelayMs := by
  unfold AdaptiveRateLimiter.emptyStreakAdjust; split <;> (try split) <;> rfl

@[simp] theorem emptyStreakAdjust_maxDelayMs (rl : AdaptiveRateLimiter) (rc : ℕ) :
    (rl.emptyStreakAdjust rc).maxDelayMs = rl.maxDelayMs := by
  unfold AdaptiveRateLimiter.emptyStreakAdjust; split <;> (try split) <;> rfl

@[simp] theorem emptyStreakAdjust_cooldownUntil (rl : AdaptiveRateLimiter) (rc : ℕ) :
    (rl.emptyStreakAdjust rc).cooldownUntil = rl.cooldownUntil := by
  unfold AdaptiveRateLimiter.emptyStreakAdjust; split <;> (try split) <;> rfl

theorem afterResponse_minDelayMs (rl : AdaptiveRateLimiter) (e : ResponseEvent) :
    (rl.afterResponse e).minDelayMs = rl.minDelayMs := by
  unfold AdaptiveRateLimiter.afterResponse
  split
  · rfl
  · simp

theorem afterResponse_maxDelayMs (rl : AdaptiveRateLimiter) (e : ResponseEvent) :
    (rl.afterResponse e).maxDelayMs = rl.maxDelayMs := by
  unfold AdaptiveRateLimiter.afterResponse
  split
  · rfl
  · simp

theorem afterResponse_cooldownUntil_of_ne (rl : AdaptiveRateLimiter) (e : ResponseEvent)
    (h : e.status ≠ 429) : (rl.afterResponse e).cooldownUntil = rl.cooldownUntil := by
  unfold AdaptiveRateLimiter.afterResponse
  rw [if_neg h]
  simp

theorem densityAdjust_dyn (rl : AdaptiveRateLimiter)
    (hmm : rl.minDelayMs ≤ rl.maxDelayMs)
    (h1 : rl.minDelayMs ≤ rl.dynamicDelayMs) (h2 : rl.dynamicDelayMs ≤ rl.maxDelayMs) :
    rl.minDelayMs ≤ rl.densityAdjust.dynamicDelayMs ∧
      rl.densityAdjust.dynamicDelayMs ≤ rl.maxDelayMs := by
  unfold AdaptiveRateLimiter.densityAdjust
  split
  · exact ⟨le_min (by linarith) hmm, min_le_right _ _⟩
  · exact ⟨h1, h2⟩

theorem latencyAdjust_dyn (rl : AdaptiveRateLimiter) (rt : ℚ)
    (hmm : rl.minDelayMs ≤ rl.maxDelayMs)
    (h1 : rl.minDelayMs ≤ rl.dynamicDelayMs) (h2 : rl.dynamicDelayMs ≤ rl.maxDelayMs) :
    rl.minDelayMs ≤ (rl.latencyAdjust rt).dynamicDelayMs ∧
      (rl.latencyAdjust rt).dynamicDelayMs ≤ rl.maxDelayMs := by
  unfold AdaptiveRateLimiter.latencyAdjust
  split
  · exact ⟨le_min (by linarith) hmm, min_le_right _ _⟩
  · split
    · exact ⟨le_max_right _ _, max_le (by linarith) hmm⟩
    · exact ⟨h1, h2⟩

theorem emptyStreakAdjust_dyn (rl : AdaptiveRateLimiter) (rc : ℕ)
    (hmm : rl.minDelayMs ≤ rl.maxDelayMs)
    (h1 : rl.minDelayMs ≤ rl.dynamicDelayMs) (h2 : rl.dynamicDelayMs ≤ rl.maxDelayMs) :
    rl.minDelayMs ≤ (rl.emptyStreakAdjust rc).dynamicDelayMs ∧
      (rl.emptyStreakAdjust rc).dynamicDelayMs ≤ rl.maxDelayMs := by
  unfold AdaptiveRateLimiter.emptyStreakAdjust
  split
  · split
    · exact ⟨le_max_right _ _, max_le (by linarith) hmm⟩
    · exact ⟨h1, h2⟩
  · exact ⟨le_max_right _ _, max_le (by linarith) hmm⟩

theorem nonRateLimited_dyn (rl : AdaptiveRateLimiter) (rt : ℚ) (rc : ℕ)
    (hmm : rl.minDelayMs ≤ rl.maxDelayMs)
    (h1 : rl.minDelayMs ≤ rl.dynamicDelayMs) (h2 : rl.dynamicDelayMs ≤ rl.maxDelayMs) :
    rl.minDelayMs ≤ (((rl.densityAdjust).latencyAdjust rt).emptyStreakAdjust rc).dynamicDelayMs ∧
      (((rl.densityAdjust).latencyAdjust rt).emptyStreakAdjust rc).dynamicDelayMs ≤ rl.maxDelayMs := by
  have hd := densityAdjust_dyn rl hmm h1 h2
  have hl := latencyAdjust_dyn rl.densityAdjust rt
  have he := emptyStreakAdjust_dyn ((rl.densityAdjust).latencyAdjust rt) rc
  simp only [densityAdjust_minDelayMs, densityAdjust_maxDelayMs,
    latencyAdjust_minDelayMs, latencyAdjust_maxDelayMs] at hl he
  exact he hmm (hl hmm hd.1 hd.2).1 (hl hmm hd.1 hd.2).2

theorem afterResponse_dyn (rl : AdaptiveRateLimiter) (e : ResponseEvent)
    (h0 : 0 ≤ rl.minDelayMs) (hmm : rl.minDelayMs ≤ rl.maxDelayMs)
    (h1 : rl.minDelayMs ≤ rl.dynamicDelayMs) (h2 : rl.dynamicDelayMs ≤ rl.maxDelayMs) :
    rl.minDelayMs ≤ (rl.afterResponse e).dynamicDelayMs ∧
      (rl.afterResponse e).dynamicDelayMs ≤ rl.maxDelayMs := by
  unfold AdaptiveRateLimiter.afterResponse
  split
  · exact ⟨le_min (by linarith) hmm, min_le_right _ _⟩
  · have h := nonRateLimited_dyn
      { rl with requestTimestamps :=
        (rl.requestTimestamps ++ [e.now]).filter (fun ts => e.now - ts < 60000) }
      e.responseTimeMs e.resultsCount hmm h1 h2
    exact ⟨h.1, h.2⟩

theorem afterResponses_dyn (rl : AdaptiveRateLimiter) (es : List ResponseEvent)
    (h0 : 0 ≤ rl.minDelayMs) (hmm : rl.minDelayMs ≤ rl.maxDelayMs)
    (h1 : rl.minDelayMs ≤ rl.dynamicDelayMs) (h2 : rl.dynamicDelayMs ≤ rl.maxDelayMs) :
    rl.minDelayMs ≤ (rl.afterResponses es).dynamicDelayMs ∧
      (rl.afterResponses es).dynamicDelayMs ≤ rl.maxDelayMs := by
  induction es generalizing rl with
  | nil => exact ⟨h1, h2⟩
  | cons e es ih =>
    have hstep := afterResponse_dyn rl e h0 hmm h1 h2
    have hmin := afterResponse_minDelayMs rl e
    have hmax := afterResponse_maxDelayMs rl e
    have hrec := ih (rl.afterResponse e) (by rw [hmin]; exact h0)
      (by rw [hmin, hmax]; exact hmm) (by rw [hmin]; exact hstep.1)
      (by rw [hmax]; exact hstep.2)
    have hcons : rl.afterResponses (e :: es) = (rl.afterResponse e).afterResponses es := rfl
    rw [hcons]
    rw [hmin] at hrec
    rw [hmax] at hrec
    exact hrec


/-! ### Claim C2: cooldown dominance -/

theorem beforeRequestWait_ge (rl : AdaptiveRateLimiter) (p : Priority) (now : ℚ)
    (hnow : 0 ≤ now) :
    rl.cooldownUntil - now ≤ rl.beforeRequestWait p now := by
  unfold AdaptiveRateLimiter.beforeRequestWait
  dsimp only
  have hw : (0:ℚ) ≤
      max (max rl.dynamicDelayMs (rl.baseForPriority p) - (now - rl.lastRequestTime)) 0 :=
    le_max_right _ _
  by_cases h : rl.cooldownUntil ≠ 0 ∧ now < rl.cooldownUntil
  · rw [if_pos h]
    linarith
  · rw [if_neg h]
    push_neg at h
    by_cases hz : rl.cooldownUntil = 0
    · rw [hz]
      linarith
    · have hle := h hz
      linarith

/-- C2: if `afterResponse` records a 429, then the next `beforeRequest` call,
at any priority and any (nonnegative) wall-clock time `now`, suspends the
caller for at least `cooldownUntil - now`. -/
theorem cooldown_dominates_beforeRequest (rl : AdaptiveRateLimiter) (e : ResponseEvent)
    (he : e.status = 429) (p : Priority) (now : ℚ) (hnow : 0 ≤ now) :
    (rl.afterResponse e).cooldownUntil - now ≤ (rl.afterResponse e).beforeRequestWait p now :=
  beforeRequestWait_ge (rl.afterResponse e) p now hnow

/-- Witness for C2 at the default configuration, a 429 at time 0,
priority low, next request at time 5. -/
theorem cooldown_dominates_beforeRequest_witness :
    ((⟨429, 0, 1000, 0⟩ : ResponseEvent).status = 429 ∧ (0:ℚ) ≤ 5) ∧
    (((AdaptiveRateLimiter.init 1500 800 8000 90).afterResponse
        ⟨429, 0, 1000, 0⟩).cooldownUntil - 5 ≤
      ((AdaptiveRateLimiter.init 1500 800 8000 90).afterResponse
        ⟨429, 0, 1000, 0⟩).beforeRequestWait Priority.low 5) :=
  ⟨⟨rfl, by norm_num⟩,
    cooldown_dominates_beforeRequest (AdaptiveRateLimiter.init 1500 800 8000 90)
      ⟨429, 0, 1000, 0⟩ rfl Priority.low 5 (by norm_num)⟩

/-! ### Claim C1: dynamic delay clamped to the configured interval -/

/-- C1 (amended): for every sequence of `afterResponse` calls applied to a
fresh rate limiter whose configured values satisfy
`0 ≤ minDelayMs ≤ baseDelayMs ≤ maxDelayMs`, `dynamicDelayMs` stays within
`[minDelayMs, maxDelayMs]` after every call. -/
theorem dynamicDelay_always_clamped (b mn mx : ℚ) (m : ℕ) (es : List ResponseEvent)
    (h0 : 0 ≤ (AdaptiveRateLimiter.init b mn mx m).minDelayMs)
    (h1 : (AdaptiveRateLimiter.init b mn mx m).minDelayMs ≤
      (AdaptiveRateLimiter.init b mn mx m).baseDelayMs)
    (h2 : (AdaptiveRateLimiter.init b mn mx m).baseDelayMs ≤
      (AdaptiveRateLimiter.init b mn mx m).maxDelayMs) :
    (AdaptiveRateLimiter.init b mn mx m).minDelayMs ≤
      ((AdaptiveRateLimiter.init b mn mx m).afterResponses es).dynamicDelayMs ∧
    ((AdaptiveRateLimiter.init b mn mx m).afterResponses es).dynamicDelayMs ≤
      (AdaptiveRateLimiter.init b mn mx m).maxDelayMs :=
  afterResponses_dyn _ es h0 (le_trans h1 h2) h1 h2

/-- C1 counterexample: with the (negative) configured values
`base = min = -1000`, `max = -500`, which do satisfy
`minDelayMs ≤ baseDelayMs ≤ maxDelayMs`, a single 429 response drives
`dynamicDelayMs` below `minDelayMs`. -/
theorem dynamicDelay_clamp_counterexample :
    (AdaptiveRateLimiter.init (-1000) (-1000) (-500) 90).minDelayMs ≤
      (AdaptiveRateLimiter.init (-1000) (-1000) (-500) 90).baseDelayMs ∧
    (AdaptiveRateLimiter.init (-1000) (-1000) (-500) 90).baseDelayMs ≤
      (AdaptiveRateLimiter.init (-1000) (-1000) (-500) 90).maxDelayMs ∧
    ((AdaptiveRateLimiter.init (-1000) (-1000) (-500) 90).afterResponses
      [⟨429, 0, 1000, 0⟩]).dynamicDelayMs <
      (AdaptiveRateLimiter.init (-1000) (-1000) (-500) 90).minDelayMs := by
  norm_num [AdaptiveRateLimiter.afterResponses, AdaptiveRateLimiter.afterResponse,
    AdaptiveRateLimiter.init, orDefault, orDefaultNat, min_def, max_def]

/-- Witness for the amended C1 at the default configuration and a
two-event response sequence. -/
theorem dynamicDelay_always_clamped_witness :
    (0 ≤ (AdaptiveRateLimiter.init 1500 800 8000 90).minDelayMs ∧
     (AdaptiveRateLimiter.init 1500 800 8000 90).minDelayMs ≤
       (AdaptiveRateLimiter.init 1500 800 8000 90).baseDelayMs ∧
     (AdaptiveRateLimiter.init 1500 800 8000 90).baseDelayMs ≤
       (AdaptiveRateLimiter.init 1500 800 8000 90).maxDelayMs) ∧
    ((AdaptiveRateLimiter.init 1500 800 8000 90).minDelayMs ≤
      ((AdaptiveRateLimiter.init 1500 800 8000 90).afterResponses
        [⟨429, 0, 1000, 0⟩, ⟨200, 5, 100, 1000⟩]).dynamicDelayMs ∧
     ((AdaptiveRateLimiter.init 1500 800 8000 90).afterResponses
        [⟨429, 0, 1000, 0⟩, ⟨200, 5, 100, 1000⟩]).dynamicDelayMs ≤
      (AdaptiveRateLimiter.init 1500 800 8000 90).maxDelayMs) :=
  ⟨⟨by norm_num [AdaptiveRateLimiter.init, orDefault],
    by norm_num [AdaptiveRateLimiter.init, orDefault],
    by norm_num [AdaptiveRateLimiter.init, orDefault]⟩,
   dynamicDelay_always_clamped 1500 800 8000 90 _
     (by norm_num [AdaptiveRateLimiter.init, orDefault])
     (by norm_num [AdaptiveRateLimiter.init, orDefault])
     (by norm_num [AdaptiveRateLimiter.init, orDefault])⟩

/-! ### Claim C3: the 429 branch of afterResponse -/

/-- C3 (amended): on a 429, `afterResponse` sets `cooldownUntil` to
`now + backoffMs` (the pre-update backoff), sets `dynamicDelayMs` to
`min(1.5 * dynamicDelayMs + 200, maxDelayMs)` and `backoffMs` to
`min(1.5 * backoffMs, 4 * maxDelayMs)`; hence the updated `backoffMs`
never exceeds `4 * maxDelayMs` and (for nonnegative backoff) is at least
`min(backoffMs, 4 * maxDelayMs)` — it can shrink when the pre-update
backoff already exceeds the cap.  No other branch modifies `cooldownUntil`. -/
theorem afterResponse_rateLimited_spec (rl : AdaptiveRateLimiter) (e : ResponseEvent)
    (he : e.status = 429) (hb : 0 ≤ rl.backoffMs) :
    (rl.afterResponse e).cooldownUntil = e.now + rl.backoffMs ∧
    (rl.afterResponse e).dynamicDelayMs = min (rl.dynamicDelayMs * (3 / 2) + 200) rl.maxDelayMs ∧
    (rl.afterResponse e).backoffMs = min (rl.backoffMs * (3 / 2)) (rl.maxDelayMs * 4) ∧
    min rl.backoffMs (rl.maxDelayMs * 4) ≤ (rl.afterResponse e).backoffMs ∧
    (rl.afterResponse e).backoffMs ≤ rl.maxDelayMs * 4 ∧
    (∀ e2 : ResponseEvent, e2.status ≠ 429 →
      (rl.afterResponse e2).cooldownUntil = rl.cooldownUntil) := by
  have hcd : (rl.afterResponse e).cooldownUntil = e.now + rl.backoffMs := by
    unfold AdaptiveRateLimiter.afterResponse
    rw [if_pos he]
  have hdyn : (rl.afterResponse e).dynamicDelayMs =
      min (rl.dynamicDelayMs * (3 / 2) + 200) rl.maxDelayMs := by
    unfold AdaptiveRateLimiter.afterResponse
    rw [if_pos he]
  have hbo : (rl.afterResponse e).backoffMs =
      min (rl.backoffMs * (3 / 2)) (rl.maxDelayMs * 4) := by
    unfold AdaptiveRateLimiter.afterResponse
    rw [if_pos he]
  refine ⟨hcd, hdyn, hbo, ?_, ?_, fun e2 h2 => afterResponse_cooldownUntil_of_ne rl e2 h2⟩
  · rw [hbo]
    exact min_le_min (by linarith) le_rfl
  · rw [hbo]
    exact min_le_right _ _

/-- C3 counterexample: at the default configuration (`maxDelayMs = 8000`,
initial `backoffMs = 60000`), the first 429 *lowers* `backoffMs` from 60000
to the cap `4 * 8000 = 32000`, contradicting "backoffMs is never smaller
than before". -/
theorem backoff_shrink_counterexample :
    (AdaptiveRateLimiter.init 1500 800 8000 90).backoffMs = 60000 ∧
    ((AdaptiveRateLimiter.init 1500 800 8000 90).afterResponse
      ⟨429, 0, 1000, 0⟩).backoffMs = 32000 ∧
    ((AdaptiveRateLimiter.init 1500 800 8000 90).afterResponse
      ⟨429, 0, 1000, 0⟩).backoffMs <
      (AdaptiveRateLimiter.init 1500 800 8000 90).backoffMs := by
  norm_num [AdaptiveRateLimiter.afterResponse, AdaptiveRateLimiter.init,
    orDefault, orDefaultNat, min_def, max_def]

/-- Witness for the amended C3 at the default configuration and a 429 at time 0. -/
theorem afterResponse_rateLimited_spec_witness :
    ((⟨429, 0, 1000, 0⟩ : ResponseEvent).status = 429 ∧
      (0:ℚ) ≤ (AdaptiveRateLimiter.init 1500 800 8000 90).backoffMs) ∧
    ((AdaptiveRateLimiter.init 1500 800 8000 90).afterResponse
      ⟨429, 0, 1000, 0⟩).cooldownUntil =
      (0:ℚ) + (AdaptiveRateLimiter.init 1500 800 8000 90).backoffMs :=
  ⟨⟨rfl, by norm_num [AdaptiveRateLimiter.init, orDefault]⟩,
   (afterResponse_rateLimited_spec (AdaptiveRateLimiter.init 1500 800 8000 90)
     ⟨429, 0, 1000, 0⟩ rfl (by norm_num [AdaptiveRateLimiter.init, orDefault])).1⟩

/-! ### Claim C7: priority ordering of base delay -/

/-- C7 (amended): whenever `minDelayMs ≤ baseDelayMs`,
`baseForPriority high ≤ baseForPriority medium ≤ baseForPriority low`,
where high subtracts 300 floored at `minDelayMs`, medium returns the base,
and low adds 300 with no cap at `maxDelayMs`. -/
theorem baseForPriority_ordering (rl : AdaptiveRateLimiter)
    (h : rl.minDelayMs ≤ rl.baseDelayMs) :
    rl.baseForPriority Priority.high ≤ rl.baseForPriority Priority.medium ∧
    rl.baseForPriority Priority.medium ≤ rl.baseForPriority Priority.low ∧
    rl.baseForPriority Priority.high = max (rl.baseDelayMs - 300) rl.minDelayMs ∧
    rl.baseForPriority Priority.medium = rl.baseDelayMs ∧
    rl.baseForPriority Priority.low = rl.baseDelayMs + 300 := by
  refine ⟨?_, ?_, rfl, rfl, rfl⟩
  · show max (rl.baseDelayMs - 300) rl.minDelayMs ≤ rl.baseDelayMs
    exact max_le (by linarith) h
  · show rl.baseDelayMs ≤ rl.baseDelayMs + 300
    linarith

/-- C7 counterexample: with `minDelayMs = 2000 > baseDelayMs = 1500` the
high-priority base exceeds the medium one, and with `maxDelayMs = 1500`
the low-priority base is `1800`, not capped at `maxDelayMs` as the claim
describes. -/
theorem baseForPriority_counterexample :
    ((AdaptiveRateLimiter.init 1500 2000 8000 90).baseForPriority Priority.medium <
      (AdaptiveRateLimiter.init 1500 2000 8000 90).baseForPriority Priority.high) ∧
    ((AdaptiveRateLimiter.init 1500 800 1500 90).baseForPriority Priority.low ≠
      min ((AdaptiveRateLimiter.init 1500 800 1500 90).baseDelayMs + 300)
          ((AdaptiveRateLimiter.init 1500 800 1500 90).maxDelayMs)) := by
  constructor <;>
    norm_num [AdaptiveRateLimiter.init, AdaptiveRateLimiter.baseForPriority,
      orDefault, min_def, max_def]

/-- Witness for the amended C7 at the default configuration. -/
theorem baseForPriority_ordering_witness :
    ((AdaptiveRateLimiter.init 1500 800 8000 90).minDelayMs ≤
      (AdaptiveRateLimiter.init 1500 800 8000 90).baseDelayMs) ∧
    ((AdaptiveRateLimiter.init 1500 800 8000 90).baseForPriority Priority.high ≤
      (AdaptiveRateLimiter.init 1500 800 8000 90).baseForPriority Priority.medium) :=
  ⟨by norm_num [AdaptiveRateLimiter.init, orDefault],
   (baseForPriority_ordering (AdaptiveRateLimiter.init 1500 800 8000 90)
     (by norm_num [AdaptiveRateLimiter.init, orDefault])).1⟩



/-! ### Helper lemmas for ASCII case mapping -/

theorem toNat_ofNat_of_valid (n : ℕ) (h : n.isValidChar) : (Char.ofNat n).toNat = n := by
  rw [Char.ofNat, dif_pos h]
  rfl

theorem charToLower_toUpper (c : Char) : c.toUpper.toLower = c.toLower := by
  by_cases h : c.toNat ≥ 97 ∧ c.toNat ≤ 122
  · have h1 : c.toUpper = Char.ofNat (c.toNat - 32) := by
      unfold Char.toUpper
      rw [if_pos h]
    have h2 : (Char.ofNat (c.toNat - 32)).toNat = c.toNat - 32 :=
      toNat_ofNat_of_valid _ (Or.inl (by omega))
    rw [h1]
    unfold Char.toLower
    rw [h2, if_pos (by omega)]
    have h3 : c.toNat - 32 + 32 = c.toNat := by omega
    rw [h3, if_neg (by omega)]
    exact Char.ofNat_toNat c
  · have h1 : c.toUpper = c := by
      unfold Char.toUpper
      rw [if_neg h]
    rw [h1]

theorem charToLower_idem (c : Char) : c.toLower.toLower = c.toLower := by
  by_cases h : c.toNat ≥ 65 ∧ c.toNat ≤ 90
  · have h1 : c.toLower = Char.ofNat (c.toNat + 32) := by
      unfold Char.toLower
      rw [if_pos h]
    have h2 : (Char.ofNat (c.toNat + 32)).toNat = c.toNat + 32 :=
      toNat_ofNat_of_valid _ (Or.inl (by omega))
    rw [h1]
    conv_lhs => unfold Char.toLower
    rw [h2, if_neg (by omega)]
  · have h1 : c.toLower = c := by
      unfold Char.toLower
      rw [if_neg h]
    rw [h1, h1]

theorem jsToLowerCase_idem (s : String) : jsToLowerCase (jsToLowerCase s) = jsToLowerCase s := by
  unfold jsToLowerCase
  have h : ∀ l : List Char, (l.map Char.toLower).map Char.toLower = l.map Char.toLower := by
    intro l
    induction l with
    | nil => rfl
    | cons c cs ih => simp [charToLower_idem, ih]
  rw [show (String.mk (s.data.map Char.toLower)).data = s.data.map Char.toLower from rfl, h]

theorem jsToLowerCase_jsToUpperCase (s : String) :
    jsToLowerCase (jsToUpperCase s) = jsToLowerCase s := by
  unfold jsToLowerCase jsToUpperCase
  have h : ∀ l : List Char, (l.map Char.toUpper).map Char.toLower = l.map Char.toLower := by
    intro l
    induction l with
    | nil => rfl
    | cons c cs ih => simp [charToLower_toUpper, ih]
  rw [show (String.mk (s.data.map Char.toUpper)).data = s.data.map Char.toUpper from rfl, h]

theorem filterProfile_pass_eq (profile : Profile) (inc exc : KeywordSets) :
    (filterProfile profile inc exc).pass =
      (!profile.is_private &&
       ((inc.english ++ inc.arabic).any fun kw =>
         jsIncludes (jsToLowerCase (jsOrStr profile.biography "")) (jsToLowerCase kw)) &&
       !((exc.english ++ exc.arabic).any fun kw =>
         jsIncludes (jsToLowerCase (jsOrStr profile.biography "")) (jsToLowerCase kw))) := by
  unfold filterProfile
  cases hp : profile.is_private
  · cases hb : (inc.english ++ inc.arabic).any fun kw =>
      jsIncludes (jsToLowerCase (jsOrStr profile.biography "")) (jsToLowerCase kw)
    · simp [hb]
    · cases hx : (exc.english ++ exc.arabic).any fun kw =>
        jsIncludes (jsToLowerCase (jsOrStr profile.biography "")) (jsToLowerCase kw)
      · simp [hb, hx]
      · simp [hb, hx]
  · simp

/-! ### Claim C4: filter correctness -/

/-- C4: `filterProfile` passes exactly when the profile is public, its
biography case-insensitively contains some include keyword from the union
of the language sets, and contains no exclude keyword (exclude wins); in
particular the two spec examples evaluate as stated. -/
theorem filterProfile_pass_iff :
    (∀ (profile : Profile) (inc exc : KeywordSets),
      (filterProfile profile inc exc).pass = true ↔
        (profile.is_private = false ∧
         (∃ kw ∈ inc.english ++ inc.arabic,
           jsIncludes (jsToLowerCase (jsOrStr profile.biography ""))
             (jsToLowerCase kw) = true) ∧
         (∀ kw ∈ exc.english ++ exc.arabic,
           jsIncludes (jsToLowerCase (jsOrStr profile.biography ""))
             (jsToLowerCase kw) = false))) ∧
    (filterProfile
      { id := "1", username := "a", full_name := "A", biography := some "DM for coaching",
        profile_pic_url := none, profile_pic_url_hd := none, is_private := false,
        is_verified := false, is_business_account := false, followersCount := 500,
        followingCount := 10, postsCount := 3 }
      { english := ["coach"], arabic := [] } { english := [], arabic := [] }).pass = true ∧
    (filterProfile
      { id := "2", username := "b", full_name := "B", biography := some "musician and coach",
        profile_pic_url := none, profile_pic_url_hd := none, is_private := false,
        is_verified := false, is_business_account := false, followersCount := 500,
        followingCount := 10, postsCount := 3 }
      { english := ["coach"], arabic := [] } { english := ["musician"], arabic := [] }).pass
      = false := by
  refine ⟨?_, by decide, by decide⟩
  intro profile inc exc
  rw [filterProfile_pass_eq]
  simp only [Bool.and_eq_true, Bool.not_eq_true', List.any_eq_true, List.any_eq_false,
    Bool.not_eq_true]
  tauto

/-! ### Claim C6: follower floor -/

/-- C6 (code-bug evidence): `filterProfile` never reads the follower
count — changing it never changes the verdict — so a public profile with
5 followers (below the configured floor of 100) still passes. -/
theorem filterProfile_ignores_followers :
    (∀ (profile : Profile) (inc exc : KeywordSets) (n : ℕ),
      filterProfile { profile with followersCount := n } inc exc
        = filterProfile profile inc exc) ∧
    ((5:ℕ) < FILTER_minFollowers ∧
     (filterProfile
       { id := "3", username := "tiny", full_name := "T", biography := some "Personal coach",
         profile_pic_url := none, profile_pic_url_hd := none, is_private := false,
         is_verified := false, is_business_account := false, followersCount := 5,
         followingCount := 10, postsCount := 3 }
       { english := ["coach"], arabic := [] } { english := [], arabic := [] }).pass = true) :=
  ⟨fun _ _ _ _ => rfl, by decide, by decide⟩

/-! ### Claim C8: strategy name partition -/

/-- C8: `configureKeywordSets` partitions the corpus: the priority set is
exactly the priority-seed names present in the corpus (absent seed names
silently dropped), the remaining set is the corpus minus the priority set,
the two are disjoint, and their union is the corpus. -/
theorem configureKeywordSets_partitions (names : List String) :
    (configureKeywordSets names).1 = prioritySeed.filter (fun n => decide (n ∈ names)) ∧
    (configureKeywordSets names).2 =
      names.filter (fun n => decide (n ∉ (configureKeywordSets names).1)) ∧
    (∀ x, x ∈ (configureKeywordSets names).1 ↔ (x ∈ prioritySeed ∧ x ∈ names)) ∧
    (∀ x, x ∈ (configureKeywordSets names).1 → x ∉ (configureKeywordSets names).2) ∧
    (∀ x, x ∈ names ↔ (x ∈ (configureKeywordSets names).1 ∨
      x ∈ (configureKeywordSets names).2)) := by
  refine ⟨rfl, rfl, ?_, ?_, ?_⟩
  · intro x
    simp [configureKeywordSets, List.mem_filter]
  · intro x hx
    simp only [configureKeywordSets, List.mem_filter, decide_eq_true_eq] at *
    tauto
  · intro x
    simp only [configureKeywordSets, List.mem_filter, decide_eq_true_eq]
    by_cases hx : x ∈ prioritySeed.filter (fun n => decide (n ∈ names)) <;>
      simp only [List.mem_filter, decide_eq_true_eq] at hx <;> tauto

/-! ### Claim C10: query case normalisation -/

/-- C10: `searchProfiles` lower-cases the query, so queries equal up to
letter case produce the same outbound request (given the same
`rank_token`), and the three case variations of a name all send the same
search query. -/
theorem searchQuery_case_insensitive :
    (∀ q1 q2 : String, jsToLowerCase q1 = jsToLowerCase q2 →
      ∀ rank : String, searchRequestParams q1 rank = searchRequestParams q2 rank) ∧
    (∀ name : String, (generateCaseVariations name).map searchQuerySent =
      [searchQuerySent name, searchQuerySent name, searchQuerySent name]) := by
  constructor
  · intro q1 q2 h rank
    unfold searchRequestParams searchQuerySent
    rw [h]
  · intro name
    unfold generateCaseVariations searchQuerySent
    simp [jsToLowerCase_idem, jsToLowerCase_jsToUpperCase]

/-- Witness for C10 at queries with different letter case and rank `"r1"`. -/
theorem searchQuery_case_insensitive_witness :
    (jsToLowerCase "Ahmed coach" = jsToLowerCase "AHMED Coach") ∧
    searchRequestParams "Ahmed coach" "r1" = searchRequestParams "AHMED Coach" "r1" :=
  ⟨by decide,
   (searchQuery_case_insensitive.1 "Ahmed coach" "AHMED Coach" (by decide) "r1")⟩



/-! ### Helper lemmas for the dedup pipeline -/

/-- A raw hit that fetches no profile or fails the filter can never be
accepted, whatever the state. -/
def hitAlwaysSkipped (f : String → Option Profile) (bk ek : KeywordSets)
    (u : RawUser) : Prop :=
  match f u.username with
  | none => True
  | some profile => (filterProfile profile bk ek).pass = false

theorem processHit_skip (f : String → Option Profile) (bk ek : KeywordSets)
    (cl ni : String) (s : SearchState) (u : RawUser)
    (h : jsToLowerCase u.username ∈ s.seenUsernames) :
    processHit f bk ek cl ni s u = s := by
  unfold processHit
  rw [if_pos h]

theorem processHit_of_alwaysSkipped (f : String → Option Profile) (bk ek : KeywordSets)
    (cl ni : String) (s : SearchState) (u : RawUser)
    (h : hitAlwaysSkipped f bk ek u) :
    processHit f bk ek cl ni s u = s := by
  unfold processHit
  unfold hitAlwaysSkipped at h
  by_cases hm : jsToLowerCase u.username ∈ s.seenUsernames
  · rw [if_pos hm]
  · rw [if_neg hm]
    cases hf : f u.username with
    | none => rfl
    | some p =>
      rw [hf] at h
      dsimp only at h ⊢
      rw [if_pos h]

theorem processHit_seen_mono (f : String → Option Profile) (bk ek : KeywordSets)
    (cl ni : String) (s : SearchState) (u : RawUser) :
    ∀ x ∈ s.seenUsernames, x ∈ (processHit f bk ek cl ni s u).seenUsernames := by
  intro x hx
  unfold processHit
  by_cases hm : jsToLowerCase u.username ∈ s.seenUsernames
  · rw [if_pos hm]
    exact hx
  · rw [if_neg hm]
    cases hf : f u.username with
    | none => exact hx
    | some p =>
      dsimp only
      by_cases hpass : (filterProfile p bk ek).pass = false
      · rw [if_pos hpass]
        exact hx
      · rw [if_neg hpass]
        exact List.mem_append_left _ hx

theorem searchAndProcess_seen_mono (f : String → Option Profile) (bk ek : KeywordSets)
    (cl ni : String) :
    ∀ (users : List RawUser) (s : SearchState) (x : String), x ∈ s.seenUsernames →
      x ∈ (searchAndProcess f bk ek cl ni s users).seenUsernames := by
  intro users
  induction users with
  | nil => exact fun s x hx => hx
  | cons u rest ih =>
    intro s x hx
    exact ih (processHit f bk ek cl ni s u) x
      (processHit_seen_mono f bk ek cl ni s u x hx)

theorem processHit_after (f : String → Option Profile) (bk ek : KeywordSets)
    (cl ni : String)
    (hfetch : ∀ un p, f un = some p → jsToLowerCase p.username = jsToLowerCase un)
    (s : SearchState) (u : RawUser) :
    jsToLowerCase u.username ∈ (processHit f bk ek cl ni s u).seenUsernames ∨
      hitAlwaysSkipped f bk ek u := by
  by_cases hm : jsToLowerCase u.username ∈ s.seenUsernames
  · left
    rw [processHit_skip f bk ek cl ni s u hm]
    exact hm
  · unfold processHit
    rw [if_neg hm]
    cases hf : f u.username with
    | none =>
      right
      unfold hitAlwaysSkipped
      rw [hf]
      trivial
    | some p =>
      dsimp only
      by_cases hpass : (filterProfile p bk ek).pass = false
      · right
        unfold hitAlwaysSkipped
        rw [hf]
        exact hpass
      · left
        rw [if_neg hpass]
        have hup : jsToLowerCase (extractTrainerInfo p cl ni).username
            = jsToLowerCase u.username := hfetch u.username p hf
        rw [show (extractTrainerInfo p cl ni).username = p.username from rfl] at hup
        show jsToLowerCase u.username ∈
          s.seenUsernames ++ [jsToLowerCase (extractTrainerInfo p cl ni).username]
        rw [show (extractTrainerInfo p cl ni).username = p.username from rfl, hup]
        exact List.mem_append_right _ (by simp)

theorem searchAndProcess_covers (f : String → Option Profile) (bk ek : KeywordSets)
    (cl ni : String)
    (hfetch : ∀ un p, f un = some p → jsToLowerCase p.username = jsToLowerCase un) :
    ∀ (users : List RawUser) (s : SearchState) (u : RawUser), u ∈ users →
      jsToLowerCase u.username ∈
        (searchAndProcess f bk ek cl ni s users).seenUsernames ∨
      hitAlwaysSkipped f bk ek u := by
  intro users
  induction users with
  | nil =>
    intro s u hu
    cases hu
  | cons v rest ih =>
    intro s u hu
    rcases List.mem_cons.mp hu with heq | hrest
    · subst heq
      rcases processHit_after f bk ek cl ni hfetch s u with hmem | hsk
      · left
        exact searchAndProcess_seen_mono f bk ek cl ni rest
          (processHit f bk ek cl ni s u) _ hmem
      · right
        exact hsk
    · exact ih (processHit f bk ek cl ni s v) u hrest

theorem searchAndProcess_noop (f : String → Option Profile) (bk ek : KeywordSets)
    (cl ni : String) :
    ∀ (users : List RawUser) (s : SearchState),
      (∀ u ∈ users, jsToLowerCase u.username ∈ s.seenUsernames ∨
        hitAlwaysSkipped f bk ek u) →
      searchAndProcess f bk ek cl ni s users = s := by
  intro users
  induction users with
  | nil => exact fun s _ => rfl
  | cons u rest ih =>
    intro s h
    have hstep : processHit f bk ek cl ni s u = s := by
      rcases h u (List.mem_cons_self u rest) with hm | hs
      · exact processHit_skip f bk ek cl ni s u hm
      · exact processHit_of_alwaysSkipped f bk ek cl ni s u hs
    show searchAndProcess f bk ek cl ni (processHit f bk ek cl ni s u) rest = s
    rw [hstep]
    exact ih s fun v hv => h v (List.mem_cons_of_mem u hv)

theorem processHit_inv (f : String → Option Profile) (bk ek : KeywordSets)
    (cl ni : String)
    (hfetch : ∀ un p, f un = some p → jsToLowerCase p.username = jsToLowerCase un)
    (s : SearchState) (u : RawUser)
    (h1 : (s.allTrainers.map fun t => jsToLowerCase t.username).Nodup)
    (h2 : ∀ t ∈ s.allTrainers, jsToLowerCase t.username ∈ s.seenUsernames) :
    ((processHit f bk ek cl ni s u).allTrainers.map
      fun t => jsToLowerCase t.username).Nodup ∧
    (∀ t ∈ (processHit f bk ek cl ni s u).allTrainers,
      jsToLowerCase t.username ∈ (processHit f bk ek cl ni s u).seenUsernames) := by
  unfold processHit
  by_cases hm : jsToLowerCase u.username ∈ s.seenUsernames
  · rw [if_pos hm]
    exact ⟨h1, h2⟩
  · rw [if_neg hm]
    cases hf : f u.username with
    | none => exact ⟨h1, h2⟩
    | some p =>
      dsimp only
      by_cases hpass : (filterProfile p bk ek).pass = false
      · rw [if_pos hpass]
        exact ⟨h1, h2⟩
      · rw [if_neg hpass]
        have hup : jsToLowerCase (extractTrainerInfo p cl ni).username
            = jsToLowerCase u.username := hfetch u.username p hf
        constructor
        · rw [List.map_append]
          rw [List.nodup_append]
          refine ⟨h1, by simp, ?_⟩
          intro a ha hb
          simp only [List.map_cons, List.map_nil, List.mem_singleton] at hb
          subst hb
          rcases List.mem_map.mp ha with ⟨t, ht, hteq⟩
          have hseen := h2 t ht
          rw [hteq] at hseen
          rw [hup] at hseen
          exact hm hseen
        · intro t ht
          rcases List.mem_append.mp ht with h | h
          · exact List.mem_append_left _ (h2 t h)
          · have heq : t = extractTrainerInfo p cl ni := by simpa using h
            subst heq
            exact List.mem_append_right _ (by simp)

theorem searchAndProcess_inv (f : String → Option Profile) (bk ek : KeywordSets)
    (cl ni : String)
    (hfetch : ∀ un p, f un = some p → jsToLowerCase p.username = jsToLowerCase un) :
    ∀ (users : List RawUser) (s : SearchState),
      (s.allTrainers.map fun t => jsToLowerCase t.username).Nodup →
      (∀ t ∈ s.allTrainers, jsToLowerCase t.username ∈ s.seenUsernames) →
      ((searchAndProcess f bk ek cl ni s users).allTrainers.map
        fun t => jsToLowerCase t.username).Nodup ∧
      (∀ t ∈ (searchAndProcess f bk ek cl ni s users).allTrainers,
        jsToLowerCase t.username ∈
          (searchAndProcess f bk ek cl ni s users).seenUsernames) := by
  intro users
  induction users with
  | nil => exact fun s ha hb => ⟨ha, hb⟩
  | cons u rest ih =>
    intro s ha hb
    have hstep := processHit_inv f bk ek cl ni hfetch s u ha hb
    exact ih (processHit f bk ek cl ni s u) hstep.1 hstep.2

/-! ### Claim C5: dedup idempotence -/

/-- C5: as long as the profile-fetch collaborator returns profiles whose
case-folded username matches the queried identity, processing a fixed hit
list twice yields exactly the state of processing it once; the accepted
list never contains two records with the same case-folded username; and
for an identity already in the seen set, insertion is a no-op. -/
theorem pipeline_dedup_idempotent (f : String → Option Profile) (bk ek : KeywordSets)
    (cl1 ni1 cl2 ni2 : String) (users : List RawUser)
    (hfetch : ∀ un p, f un = some p → jsToLowerCase p.username = jsToLowerCase un) :
    searchAndProcess f bk ek cl2 ni2
        (searchAndProcess f bk ek cl1 ni1 SearchState.initial users) users
      = searchAndProcess f bk ek cl1 ni1 SearchState.initial users ∧
    ((searchAndProcess f bk ek cl1 ni1 SearchState.initial users).allTrainers.map
      fun t => jsToLowerCase t.username).Nodup ∧
    (∀ (s : SearchState) (u : RawUser), jsToLowerCase u.username ∈ s.seenUsernames →
      processHit f bk ek cl1 ni1 s u = s) := by
  refine ⟨?_, ?_, fun s u h => processHit_skip f bk ek cl1 ni1 s u h⟩
  · apply searchAndProcess_noop
    intro u hu
    exact searchAndProcess_covers f bk ek cl1 ni1 hfetch users SearchState.initial u hu
  · exact (searchAndProcess_inv f bk ek cl1 ni1 hfetch users SearchState.initial
      (by simp [SearchState.initial]) (by simp [SearchState.initial])).1

/-- Witness for C5: an echoing fetch collaborator and a duplicate pair of
hits differing only in letter case. -/
theorem pipeline_dedup_idempotent_witness :
    (∀ un p, (fun un => some
        { id := "1", username := un, full_name := "", biography := some "coach",
          profile_pic_url := none, profile_pic_url_hd := none, is_private := false,
          is_verified := false, is_business_account := false, followersCount := 10,
          followingCount := 0, postsCount := 0 } : String → Option Profile) un = some p →
      jsToLowerCase p.username = jsToLowerCase un) ∧
    searchAndProcess (fun un => some
        { id := "1", username := un, full_name := "", biography := some "coach",
          profile_pic_url := none, profile_pic_url_hd := none, is_private := false,
          is_verified := false, is_business_account := false, followersCount := 10,
          followingCount := 0, postsCount := 0 })
      { english := ["coach"], arabic := [] } { english := [], arabic := [] } "c2" "t2"
      (searchAndProcess (fun un => some
        { id := "1", username := un, full_name := "", biography := some "coach",
          profile_pic_url := none, profile_pic_url_hd := none, is_private := false,
          is_verified := false, is_business_account := false, followersCount := 10,
          followingCount := 0, postsCount := 0 })
        { english := ["coach"], arabic := [] } { english := [], arabic := [] } "c1" "t1"
        SearchState.initial
        [⟨"9", "Ahmed", "", 5, false, false, "", ""⟩, ⟨"9", "AHMED", "", 5, false, false, "", ""⟩])
      [⟨"9", "Ahmed", "", 5, false, false, "", ""⟩, ⟨"9", "AHMED", "", 5, false, false, "", ""⟩]
      = searchAndProcess (fun un => some
        { id := "1", username := un, full_name := "", biography := some "coach",
          profile_pic_url := none, profile_pic_url_hd := none, is_private := false,
          is_verified := false, is_business_account := false, followersCount := 10,
          followingCount := 0, postsCount := 0 })
        { english := ["coach"], arabic := [] } { english := [], arabic := [] } "c1" "t1"
        SearchState.initial
        [⟨"9", "Ahmed", "", 5, false, false, "", ""⟩, ⟨"9", "AHMED", "", 5, false, false, "", ""⟩] :=
  ⟨fun un p h => by cases h; rfl,
   (pipeline_dedup_idempotent _ _ _ "c1" "t1" "c2" "t2" _
     (fun un p h => by cases h; rfl)).1⟩

/-! ### Claim C9: fetch failures are skipped -/

/-- C9: a raw hit whose profile fetch returns no data leaves the state
unchanged, and the hit loop simply continues with the remaining hits. -/
theorem fetch_failure_skips (f : String → Option Profile) (bk ek : KeywordSets)
    (cl ni : String) (s : SearchState) (u : RawUser) (rest : List RawUser)
    (hf : f u.username = none) :
    processHit f bk ek cl ni s u = s ∧
    searchAndProcess f bk ek cl ni s (u :: rest) = searchAndProcess f bk ek cl ni s rest := by
  have h1 : processHit f bk ek cl ni s u = s := by
    apply processHit_of_alwaysSkipped
    unfold hitAlwaysSkipped
    rw [hf]
    trivial
  refine ⟨h1, ?_⟩
  show searchAndProcess f bk ek cl ni (processHit f bk ek cl ni s u) rest
    = searchAndProcess f bk ek cl ni s rest
  rw [h1]

/-- Witness for C9 with an always-failing fetch collaborator. -/
theorem fetch_failure_skips_witness :
    ((fun _ => none : String → Option Profile) "ahmed" = none) ∧
    processHit (fun _ => none) { english := [], arabic := [] }
      { english := [], arabic := [] } "c" "t" SearchState.initial
      ⟨"9", "ahmed", "", 5, false, false, "", ""⟩ = SearchState.initial :=
  ⟨rfl,
   (fetch_failure_skips (fun _ => none) { english := [], arabic := [] }
     { english := [], arabic := [] } "c" "t" SearchState.initial
     ⟨"9", "ahmed", "", 5, false, false, "", ""⟩ [] rfl).1⟩


end IGS
